import Mathlib

/-!
Verification of the Beacon document-state and persistence-reconciliation
engine (`src/renderer/app/BeaconApp.ts`), as a shallow embedding.

Two levels are modelled, mirroring the source:
* a typed level (`PageData`, `AppData`, `AppState`) for the Document Store
  operations (`createNewPage`, `deleteCurrentPage`, `duplicateCurrentPage`,
  `searchPages`);
* an untyped level (`Json`) for the dynamic payloads flowing through
  `migrateData`, `validateImportedData`, `importData` and `loadFromStorage`.

JavaScript `Date.now()` is modelled by an explicit `now : Int` parameter and
the host `Date`-string parser by an explicit `parseDate : String → Option Int`
parameter (the source delegates both to the runtime).  A thrown exception in
the translated code is modelled as `Option.none` at the throwing function.
-/

namespace Beacon

/-- A page record, mirroring the `PageData` interface of the source.
`Date` values are modelled as epoch timestamps (`Int`). -/
structure PageData where
  id : String
  title : String
  icon : String
  content : String
  createdAt : Int
  updatedAt : Int
deriving DecidableEq, Repr

/-- The theme union type `"light" | "dark"`. -/
inductive Theme where
  | light
  | dark
deriving DecidableEq, Repr

/-- The aggregate root, mirroring the `AppData` interface of the source. -/
structure AppData where
  pages : List PageData
  currentPageId : String
  theme : Theme
  version : String
deriving DecidableEq, Repr

/-- The live application state: the owned `AppData` plus the in-memory
active-page pointer `this.currentPage` (a `PageData | null` in the source). -/
structure AppState where
  data : AppData
  currentPage : Option PageData
deriving DecidableEq, Repr

/-- JavaScript `a || b` on strings: the empty string is falsy. -/
def jsOrStr (a b : String) : String :=
  if a.isEmpty then b else a

/-- The serialized welcome content returned by `getWelcomeContent`. -/
def getWelcomeContent : String :=
  "\n      <div class=\"block\">\n        <div class=\"block-handle\">⋮⋮</div>\n        <div class=\"block-content\">\n          Bem-vindo ao seu novo aplicativo de produtividade! \n        </div>\n      </div>\n      \n      <div class=\"block\">\n        <div class=\"block-handle\">⋮⋮</div>\n        <div class=\"block-content heading-2\">\n          Recursos principais:\n        </div>\n      </div>\n      \n      <div class=\"block\">\n        <div class=\"block-handle\">⋮⋮</div>\n        <div class=\"block-content todo-item\">\n          <div class=\"todo-checkbox\" onclick=\"app.toggleTodo(this)\"></div>\n          <div>Armazenamento local seguro</div>\n        </div>\n      </div>\n      \n      <div class=\"block\">\n        <div class=\"block-handle\">⋮⋮</div>\n        <div class=\"block-content todo-item\">\n          <div class=\"todo-checkbox\" onclick=\"app.toggleTodo(this)\"></div>\n          <div>Interface moderna e intuitiva</div>\n        </div>\n      </div>\n      \n      <div class=\"block\">\n        <div class=\"block-handle\">⋮⋮</div>\n        <div class=\"block-content todo-item\">\n          <div class=\"todo-checkbox checked\" onclick=\"app.toggleTodo(this)\"></div>\n          <div>Tema claro e escuro</div>\n        </div>\n      </div>\n      \n      <div class=\"block\">\n        <div class=\"block-handle\">⋮⋮</div>\n        <div class=\"block-content\">\n          Comece criando uma nova página ou editando esta. Todos os seus dados são salvos automaticamente.\n        </div>\n      </div>\n    "

/-- The seeded single welcome page of `getDefaultData` (`new Date()` = `now`). -/
def welcomePage (now : Int) : PageData :=
  { id := "welcome"
    title := "Bem-vindo ao Beacon"
    icon := "📄"
    content := getWelcomeContent
    createdAt := now
    updatedAt := now }

/-- `getDefaultData`: the default collection seeded on first run. -/
def getDefaultData (now : Int) : AppData :=
  { pages := [welcomePage now]
    currentPageId := "welcome"
    theme := Theme.light
    version := "1.0.0" }

/-- The application state right after a first-run startup: default data, with
the active-page pointer resolved to the welcome page (as `loadFromStorage`
leaves it when no persisted state exists). -/
def startupState (now : Int) : AppState :=
  { data := getDefaultData now, currentPage := some (welcomePage now) }

/-- `createNewPage(title, icon)`: appends a page whose id is
`Date.now().toString()` and makes it active.  `now` stands for `Date.now()`. -/
def createNewPage (s : AppState) (now : Int) (title icon : String) : AppState :=
  let newPage : PageData :=
    { id := toString now
      title := jsOrStr title "Nova Página"
      icon := jsOrStr icon "📄"
      content := "<div class=\"block\"><div class=\"block-handle\">⋮⋮</div><div class=\"block-content\">Comece a escrever...</div></div>"
      createdAt := now
      updatedAt := now }
  { data := { s.data with
                pages := s.data.pages ++ [newPage]
                currentPageId := newPage.id }
    currentPage := some newPage }

/-- `duplicateCurrentPage()`: clones the active page under the title
`` `${title} (Cópia)` `` with a fresh time-based id, and makes it active. -/
def duplicateCurrentPage (s : AppState) (now : Int) : AppState :=
  match s.currentPage with
  | none => s
  | some cp =>
    let duplicatedPage : PageData :=
      { id := toString now
        title := cp.title ++ " (Cópia)"
        icon := cp.icon
        content := cp.content
        createdAt := now
        updatedAt := now }
    { data := { s.data with
                  pages := s.data.pages ++ [duplicatedPage]
                  currentPageId := duplicatedPage.id }
      currentPage := some duplicatedPage }

/-- Outcome of `deleteCurrentPage`: the guard alert (`CannotDeleteLastPage`),
the user declining the confirm dialog, or an actual deletion. -/
inductive DeleteResult where
  | cannotDeleteLastPage
  | cancelled
  | deleted
deriving DecidableEq, Repr

/-- `deleteCurrentPage()`.  `confirmed` is the result of the `confirm` dialog.
`none` models the (unreachable in normal operation) `TypeError` the source
would throw when the active page's id matches no page, or when indexing past
the array after the splice. -/
def deleteCurrentPage (s : AppState) (confirmed : Bool) :
    Option (AppState × DeleteResult) :=
  match s.currentPage with
  | none => some (s, DeleteResult.cannotDeleteLastPage)
  | some cp =>
    if s.data.pages.length ≤ 1 then
      some (s, DeleteResult.cannotDeleteLastPage)
    else if confirmed then
      match s.data.pages.findIdx? (fun p => p.id == cp.id) with
      | none => none
      | some currentIndex =>
        let pages2 := s.data.pages.eraseIdx currentIndex
        let newIndex :=
          if pages2.length ≤ currentIndex then currentIndex - 1
          else currentIndex
        match pages2.get? newIndex with
        | none => none
        | some np =>
          some ({ data := { s.data with
                              pages := pages2
                              currentPageId := np.id }
                  currentPage := some np },
                DeleteResult.deleted)
    else
      some (s, DeleteResult.cancelled)

/-- Boolean check that `pat` occurs at the start of `l`
(the head comparison step of JavaScript `String.prototype.includes`). -/
def listStartsWith : List Char → List Char → Bool
  | _, [] => true
  | [], _ :: _ => false
  | a :: l, b :: pat => a == b && listStartsWith l pat

/-- Boolean substring scan modelling JavaScript `String.prototype.includes`
on the underlying character sequences. -/
def listContainsSub (pat : List Char) : List Char → Bool
  | [] => pat.isEmpty
  | a :: t => listStartsWith (a :: t) pat || listContainsSub pat t

/-- JavaScript `s.includes(pat)`. -/
def jsIncludes (s pat : String) : Bool :=
  listContainsSub pat.toList s.toList

/-- JavaScript `s.trim()`: strip whitespace from both ends (an executable
character-list implementation, since the host trim is not part of the
source). -/
def jsTrim (s : String) : String :=
  ⟨((s.toList.dropWhile Char.isWhitespace).reverse.dropWhile
      Char.isWhitespace).reverse⟩

/-- `searchPages(query)`: blank query returns all pages, otherwise a
case-insensitive substring filter over title and content. -/
def searchPages (s : AppState) (query : String) : List PageData :=
  if (jsTrim query).isEmpty then s.data.pages
  else
    let searchTerm := query.toLower
    s.data.pages.filter (fun page =>
      jsIncludes page.title.toLower searchTerm ||
      jsIncludes page.content.toLower searchTerm)

/-- Dynamic JavaScript values flowing through the untyped payload paths.
`null` also stands for `undefined` (same truthiness, and property access on
either throws).  `date` is a host `Date` object by its epoch timestamp;
`date none` is an `Invalid Date`.  A parsed-JSON tree contains no `date`. -/
inductive Json where
  | null
  | bool (b : Bool)
  | num (n : Int)
  | str (s : String)
  | arr (xs : List Json)
  | obj (fields : List (String × Json))
  | date (t : Option Int)

/-- JavaScript truthiness of a value.  Every object — including an
`Invalid Date` — is truthy. -/
def Json.truthy : Json → Bool
  | .null => false
  | .bool b => b
  | .num n => n != 0
  | .str s => !s.isEmpty
  | .arr _ => true
  | .obj _ => true
  | .date _ => true

/-- Lookup of a field in an object's field list; an absent field is
`undefined`, conflated with `Json.null`. -/
def getField : List (String × Json) → String → Json
  | [], _ => Json.null
  | f :: fs, k => if f.1 = k then f.2 else getField fs k

/-- Property read `j[k]`.  On `null`/`undefined` the source would throw; the
call sites that can actually receive `null` model the throw explicitly, so
this total version returns `undefined` there. -/
def Json.get : Json → String → Json
  | .obj fs, k => getField fs k
  | _, _ => .null

/-- In-place field assignment on an object's field list: overwrite the first
occurrence, append if absent. -/
def setFields : List (String × Json) → String → Json → List (String × Json)
  | [], k, v => [(k, v)]
  | f :: fs, k, v => if f.1 = k then (k, v) :: fs else f :: setFields fs k v

/-- Property write `j[k] = v` (a no-op on non-objects, where the callers in
the modelled paths never land). -/
def Json.set : Json → String → Json → Json
  | .obj fs, k, v => .obj (setFields fs k v)
  | j, _, _ => j

/-- JavaScript `a || b`. -/
def jsOr (a b : Json) : Json :=
  if a.truthy then a else b

/-- JavaScript `===` on parsed-JSON data: primitives compare by value;
distinct objects/arrays (which parsed JSON trees always are) compare false. -/
def jsStrictEq : Json → Json → Bool
  | .null, .null => true
  | .bool a, .bool b => a == b
  | .num a, .num b => a == b
  | .str a, .str b => a == b
  | _, _ => false

/-- `new Date(v)` applied to a truthy value `v`.  `parseDate` is the host's
string-to-timestamp parser (not reimplemented; `none` is an `Invalid Date`).
Copying a `Date` or converting a number preserves the timestamp. -/
def newDateFrom (parseDate : String → Option Int) : Json → Json
  | .date t => .date t
  | .num n => .date (some n)
  | .str s => .date (parseDate s)
  | .bool b => .date (some (if b then 1 else 0))
  | _ => .date none

/-- The per-page object literal built inside `migrateData`'s `pages.map`:
id passed through, title/icon/content defaulted when falsy, timestamps
rebuilt as `Date`s (defaulting to `new Date()` = `now` when falsy). -/
def migratePageObj (parseDate : String → Option Int) (now : Int)
    (page : Json) : Json :=
  Json.obj
    [("id", page.get "id"),
     ("title", jsOr (page.get "title") (Json.str "Página sem título")),
     ("icon", jsOr (page.get "icon") (Json.str "📄")),
     ("content", jsOr (page.get "content") (Json.str "")),
     ("createdAt",
       if (page.get "createdAt").truthy then
         newDateFrom parseDate (page.get "createdAt")
       else Json.date (some now)),
     ("updatedAt",
       if (page.get "updatedAt").truthy then
         newDateFrom parseDate (page.get "updatedAt")
       else Json.date (some now))]

/-- One step of `migrateData`'s `pages.map`; reading `page.id` off a
`null`/`undefined` entry throws, which is `none`. -/
def migratePage (parseDate : String → Option Int) (now : Int)
    (page : Json) : Option Json :=
  match page with
  | .null => none
  | _ => some (migratePageObj parseDate now page)

/-- The two header-filling steps of `migrateData`: set `version` when falsy,
then `theme` when falsy. -/
def migrateHeader (data : Json) : Json :=
  let d1 :=
    if (data.get "version").truthy then data
    else data.set "version" (Json.str "1.0.0")
  if (d1.get "theme").truthy then d1
  else d1.set "theme" (Json.str "light")

/-- `migrateData(data)`: fills `version` and `theme` when falsy and rebuilds
every page field-by-field.  `none` models the exception thrown when `data`
is not an object or `data.pages` has no `map` (not an array). -/
def migrateData (parseDate : String → Option Int) (now : Int)
    (data : Json) : Option Json :=
  match data with
  | .obj _ =>
    match (migrateHeader data).get "pages" with
    | .arr pages =>
      (pages.mapM (migratePage parseDate now)).map
        (fun ps => (migrateHeader data).set "pages" (Json.arr ps))
    | _ => none
  | _ => none

/-- The body of `restoreDates`' `forEach`: re-parse a page's timestamp fields
when they are still strings. -/
def restorePage (parseDate : String → Option Int) (page : Json) : Json :=
  let p1 :=
    match page.get "createdAt" with
    | .str s => page.set "createdAt" (Json.date (parseDate s))
    | _ => page
  match p1.get "updatedAt" with
  | .str s => p1.set "updatedAt" (Json.date (parseDate s))
  | _ => p1

/-- `restoreDates()`: restore `Date` objects from strings on every page. -/
def restoreDates (parseDate : String → Option Int) (d : Json) : Json :=
  match d.get "pages" with
  | .arr ps => d.set "pages" (Json.arr (ps.map (restorePage parseDate)))
  | _ => d

/-- The check `typeof v === "string"`. -/
def typeofString : Json → Bool
  | .str _ => true
  | _ => false

/-- One page's conjunct in `validateImportedData`:
`page.id && page.title && typeof page.content === "string"`.
Reading `page.id` off `null`/`undefined` throws (`none`). -/
def validatePage (page : Json) : Option Bool :=
  match page with
  | .null => none
  | _ =>
    some ((page.get "id").truthy &&
          ((page.get "title").truthy &&
           typeofString (page.get "content")))

/-- `data.pages.every(...)` with JavaScript's short-circuiting: a page that
fails stops the scan; a throwing page propagates the exception. -/
def validatePages : List Json → Option Bool
  | [] => some true
  | p :: rest =>
    match validatePage p with
    | none => none
    | some false => some false
    | some true => validatePages rest

/-- `validateImportedData(data)`: the payload is truthy, `data.pages` is a
non-empty array, and every page passes `validatePage`. -/
def validateImportedData (data : Json) : Option Bool :=
  if data.truthy then
    match data.get "pages" with
    | .arr pages =>
      if pages.length > 0 then validatePages pages else some false
    | _ => some false
  else some false

/-- The state touched by the untyped payload paths: the dynamic `this.data`
plus the `this.currentPage` pointer (`Json.null` = `null`/`undefined`). -/
structure RawState where
  data : Json
  currentPage : Json

/-- `importData(filePath)` from the point where the file content has been
read and parsed.  `ext` is the lowercased path extension, `payload` the
parsed JSON, `confirmed` the user's answer to the confirm dialog.  Every
rejection path leaves the state untouched; the success path replaces the
collection, re-points the active page at `pages[0]` and overwrites
`currentPageId` with that page's id. -/
def importData (parseDate : String → Option Int) (now : Int) (s : RawState)
    (payload : Json) (ext : String) (confirmed : Bool) : RawState :=
  if ext = "json" then
    match validateImportedData payload with
    | some true =>
      if confirmed then
        match migrateData parseDate now payload with
        | some d =>
          let d2 := restoreDates parseDate d
          let firstPage :=
            match d2.get "pages" with
            | .arr ps => ps.headD Json.null
            | _ => Json.null
          match firstPage with
          | .null =>
            -- `this.data.currentPageId = this.currentPage.id` would throw
            -- here (empty pages), after `this.data` was already replaced;
            -- unreachable because validation requires a non-empty array.
            { data := d2, currentPage := Json.null }
          | _ =>
            { data := d2.set "currentPageId" (firstPage.get "id")
              currentPage := firstPage }
        | none => s
      else s
    | _ => s
  else s

/-- The tail of `loadFromStorage`: re-point `this.currentPage` at the page
matching `currentPageId`, falling back to `pages[0]`.  `none` models the
throw when `pages` is not an array. -/
def setCurrentPageFrom (s : RawState) : Option RawState :=
  match s.data.get "pages" with
  | .arr ps =>
    let found := ps.find? (fun p => jsStrictEq (p.get "id") (s.data.get "currentPageId"))
    some { s with currentPage :=
             match found with
             | some p => p
             | none => ps.headD Json.null }
  | _ => none

/-- `loadFromStorage()`: when a stored payload exists it is migrated and its
dates restored before becoming the live data; then the active-page pointer
is resolved.  Any exception is caught, leaving whatever state was reached. -/
def loadFromStorage (parseDate : String → Option Int) (now : Int)
    (s : RawState) (stored : Option Json) : RawState :=
  match stored with
  | none => (setCurrentPageFrom s).getD s
  | some raw =>
    match migrateData parseDate now raw with
    | none => s
    | some d =>
      let s2 : RawState := { s with data := restoreDates parseDate d }
      (setCurrentPageFrom s2).getD s2

/-- Projection used to state properties: the id of the first page of a
dynamic collection. -/
def firstPageId (d : Json) : Json :=
  match d.get "pages" with
  | .arr ps => (ps.headD Json.null).get "id"
  | _ => .null

/-! Spec-side definitions, written from the words of the spec's §4.4
validation paragraph (the refinement counterpart of
`validateImportedData`): "payload is a non-empty structure; its `pages`
field is a non-empty sequence; every element has a non-empty `id`, a
non-empty `title`, and a `content` field that is a string (may be empty)". -/

/-- Spec-side: a value is present and non-empty (neither absent/null, nor
`false`, zero, nor the empty string). -/
def Truthy (j : Json) : Prop :=
  j ≠ Json.null ∧ j ≠ Json.bool false ∧ j ≠ Json.num 0 ∧ j ≠ Json.str ""

/-- Spec-side: a page element has a non-empty `id`, a non-empty `title`,
and a `content` field that is a string (possibly empty). -/
def SpecPageOk (p : Json) : Prop :=
  p ≠ Json.null ∧ Truthy (p.get "id") ∧ Truthy (p.get "title") ∧
  ∃ s, p.get "content" = Json.str s

/-- Spec-side: the whole payload is acceptable for import. -/
def SpecImportAccepted (d : Json) : Prop :=
  Truthy d ∧
  ∃ ps, d.get "pages" = Json.arr ps ∧ ps ≠ [] ∧ ∀ p ∈ ps, SpecPageOk p

/-! Concrete fixtures used by counterexamples and witnesses. -/

/-- A stand-in for the host date parser in concrete runs. -/
def pdFix : String → Option Int := fun _ => none

/-- A generic typed page fixture. -/
def pFix1 : PageData :=
  { id := "1", title := "A", icon := "i", content := "hello world",
    createdAt := 0, updatedAt := 0 }

/-- A second typed page fixture. -/
def pFix2 : PageData :=
  { id := "2", title := "B", icon := "i", content := "other text",
    createdAt := 0, updatedAt := 0 }

/-- A single-page typed state. -/
def sSingle : AppState :=
  { data := { pages := [pFix1], currentPageId := "1",
              theme := Theme.light, version := "1.0.0" }
    currentPage := some pFix1 }

/-- A two-page typed state whose active page is the first. -/
def sTwo : AppState :=
  { data := { pages := [pFix1, pFix2], currentPageId := "1",
              theme := Theme.light, version := "1.0.0" }
    currentPage := some pFix1 }

/-- A page titled "Notes". -/
def pNotes : PageData :=
  { id := "1", title := "Notes", icon := "📄", content := "<p>x</p>",
    createdAt := 0, updatedAt := 0 }

/-- A state whose active page is titled "Notes". -/
def sNotes : AppState :=
  { data := { pages := [pNotes], currentPageId := "1",
              theme := Theme.light, version := "1.0.0" }
    currentPage := some pNotes }

/-- A dynamic page fixture passing import validation. -/
def goodPageJ : Json :=
  Json.obj [("id", Json.str "1"), ("title", Json.str "A"),
            ("content", Json.str "")]

/-- A dynamic page fixture with no `title` field. -/
def noTitlePageJ : Json :=
  Json.obj [("id", Json.str "2"), ("content", Json.str "x")]

/-- An import payload in which exactly one page lacks a title. -/
def payloadNoTitle : Json :=
  Json.obj [("pages", Json.arr [goodPageJ, noTitlePageJ])]

/-- An import payload whose `pages` is the empty array. -/
def payloadEmptyPages : Json :=
  Json.obj [("pages", Json.arr [])]

/-- A valid import payload that carries its own (to-be-discarded)
`currentPageId`. -/
def payloadWithCpid : Json :=
  Json.obj [("pages", Json.arr [goodPageJ]),
            ("currentPageId", Json.str "IGNORED")]

/-- A plausible dynamic application state used as the pre-import state. -/
def rawFix : RawState :=
  { data := Json.obj [("pages", Json.arr [goodPageJ]),
                      ("currentPageId", Json.str "1"),
                      ("theme", Json.str "light"),
                      ("version", Json.str "1.0.0")]
    currentPage := goodPageJ }

/-- A raw (pre-load) state, before any data has been loaded. -/
def emptyRawState : RawState :=
  { data := Json.obj [], currentPage := Json.null }

/-- A persisted payload whose `currentPageId` matches no page id. -/
def rawStale : Json :=
  Json.obj [("pages", Json.arr
               [Json.obj [("id", Json.str "a"), ("title", Json.str "T"),
                          ("icon", Json.str "i"), ("content", Json.str "c"),
                          ("createdAt", Json.num 1),
                          ("updatedAt", Json.num 1)]]),
            ("currentPageId", Json.str "zzz")]

/-- The migrated image of `rawStale`'s single page. -/
def qStale : Json :=
  Json.obj [("id", Json.str "a"), ("title", Json.str "T"),
            ("icon", Json.str "i"), ("content", Json.str "c"),
            ("createdAt", Json.date (some 1)),
            ("updatedAt", Json.date (some 1))]

/-- The migrated image of `rawStale`. -/
def dStale : Json :=
  Json.obj [("pages", Json.arr [qStale]),
            ("currentPageId", Json.str "zzz"),
            ("version", Json.str "1.0.0"),
            ("theme", Json.str "light")]

/-- A minimal payload for the idempotence witness. -/
def xIdem : Json :=
  Json.obj [("pages", Json.arr [Json.obj [("id", Json.str "p")]])]

/-- The migrated image of `xIdem`. -/
def yIdem : Json :=
  Json.obj [("pages", Json.arr
               [Json.obj [("id", Json.str "p"),
                          ("title", Json.str "Página sem título"),
                          ("icon", Json.str "📄"),
                          ("content", Json.str ""),
                          ("createdAt", Json.date (some 0)),
                          ("updatedAt", Json.date (some 0))]]),
            ("version", Json.str "1.0.0"),
            ("theme", Json.str "light")]

/-! Helper lemmas about the dynamic-object operations. -/

theorem getField_setFields_self (fs : List (String × Json)) (k : String)
    (v : Json) : getField (setFields fs k v) k = v := by
  induction fs with
  | nil => simp [setFields, getField]
  | cons f fs ih =>
    by_cases h : f.1 = k
    · simp [setFields, getField, h]
    · simp [setFields, getField, h, ih]

theorem getField_setFields_ne (fs : List (String × Json)) (k k' : String)
    (v : Json) (h : k' ≠ k) :
    getField (setFields fs k v) k' = getField fs k' := by
  have h2 : k ≠ k' := Ne.symm h
  induction fs with
  | nil => simp [setFields, getField, h2]
  | cons f fs ih =>
    by_cases hf : f.1 = k
    · simp [setFields, getField, hf, h2]
    · simp [setFields, getField, hf, ih]

theorem setFields_setFields_self (fs : List (String × Json)) (k : String)
    (v w : Json) : setFields (setFields fs k v) k w = setFields fs k w := by
  induction fs with
  | nil => simp [setFields]
  | cons f fs ih =>
    by_cases h : f.1 = k
    · simp [setFields, h]
    · simp [setFields, h, ih]

theorem jsOr_jsOr (a b : Json) : jsOr (jsOr a b) b = jsOr a b := by
  by_cases h : a.truthy
  · simp [jsOr, h]
  · simp [jsOr, h]

theorem newDateFrom_date (pd : String → Option Int) (v : Json) :
    ∃ t, newDateFrom pd v = Json.date t := by
  cases v <;> exact ⟨_, rfl⟩

theorem migratePage_of_ne_null (pd : String → Option Int) (now : Int)
    (p : Json) (h : p ≠ Json.null) :
    migratePage pd now p = some (migratePageObj pd now p) := by
  cases p <;> simp_all [migratePage]

theorem migratePage_ne_null (pd : String → Option Int) (now : Int)
    (p q : Json) (h : migratePage pd now p = some q) : p ≠ Json.null := by
  intro hp; subst hp; simp [migratePage] at h

theorem migratePageObj_get_id (pd : String → Option Int) (now : Int) (p : Json) :
    (migratePageObj pd now p).get "id" = p.get "id" := rfl

theorem migratePageObj_get_title (pd : String → Option Int) (now : Int) (p : Json) :
    (migratePageObj pd now p).get "title" =
      jsOr (p.get "title") (Json.str "Página sem título") := rfl

theorem migratePageObj_get_icon (pd : String → Option Int) (now : Int) (p : Json) :
    (migratePageObj pd now p).get "icon" = jsOr (p.get "icon") (Json.str "📄") := rfl

theorem migratePageObj_get_content (pd : String → Option Int) (now : Int) (p : Json) :
    (migratePageObj pd now p).get "content" = jsOr (p.get "content") (Json.str "") := rfl

theorem migratePageObj_get_created (pd : String → Option Int) (now : Int) (p : Json) :
    (migratePageObj pd now p).get "createdAt" =
      (if (p.get "createdAt").truthy then newDateFrom pd (p.get "createdAt")
       else Json.date (some now)) := rfl

theorem migratePageObj_get_updated (pd : String → Option Int) (now : Int) (p : Json) :
    (migratePageObj pd now p).get "updatedAt" =
      (if (p.get "updatedAt").truthy then newDateFrom pd (p.get "updatedAt")
       else Json.date (some now)) := rfl

theorem migratePageObj_idem (pd pd' : String → Option Int) (now now' : Int) (p : Json) :
    migratePageObj pd' now' (migratePageObj pd now p) = migratePageObj pd now p := by
  obtain ⟨tc, hc⟩ : ∃ t, (if (p.get "createdAt").truthy then newDateFrom pd (p.get "createdAt") else Json.date (some now)) = Json.date t := by
    split
    · exact newDateFrom_date pd _
    · exact ⟨some now, rfl⟩
  obtain ⟨tu, hu⟩ : ∃ t, (if (p.get "updatedAt").truthy then newDateFrom pd (p.get "updatedAt") else Json.date (some now)) = Json.date t := by
    split
    · exact newDateFrom_date pd _
    · exact ⟨some now, rfl⟩
  have gc : (migratePageObj pd now p).get "createdAt" = Json.date tc := by
    rw [migratePageObj_get_created, hc]
  have gu : (migratePageObj pd now p).get "updatedAt" = Json.date tu := by
    rw [migratePageObj_get_updated, hu]
  conv_lhs => rw [migratePageObj]
  rw [migratePageObj_get_id, migratePageObj_get_title, migratePageObj_get_icon,
      migratePageObj_get_content, gc, gu]
  simp only [jsOr_jsOr, Json.truthy, newDateFrom, if_true]
  conv_rhs => rw [migratePageObj]
  rw [hc, hu]

theorem mapM_option_eq_some_self (f : Json → Option Json) :
    ∀ l : List Json, (∀ a ∈ l, f a = some a) → l.mapM f = some l
  | [], _ => rfl
  | a :: l, h => by
    have ha := h a (by simp)
    have hl := mapM_option_eq_some_self f l (fun b hb => h b (by simp [hb]))
    rw [List.mapM_cons, ha, hl]
    rfl

theorem mapM_option_mem (f : Json → Option Json) :
    ∀ (l out : List Json), l.mapM f = some out → ∀ b ∈ out, ∃ a ∈ l, f a = some b
  | [], out, h => by
    simp only [List.mapM_nil, Option.pure_def, Option.some.injEq] at h
    subst h
    simp
  | a :: l, out, h => by
    rw [List.mapM_cons] at h
    cases hfa : f a with
    | none => rw [hfa] at h; simp at h
    | some b0 =>
      rw [hfa] at h
      cases hml : l.mapM f with
      | none => rw [hml] at h; simp at h
      | some rest =>
        rw [hml] at h
        simp only [Option.bind_eq_bind, Option.some_bind, Option.pure_def,
          Option.some.injEq] at h
        subst h
        intro b hb
        rcases List.mem_cons.mp hb with hb | hb
        · exact ⟨a, by simp, by rw [hfa, hb]⟩
        · obtain ⟨a', ha', hfa'⟩ := mapM_option_mem f l rest hml b hb
          exact ⟨a', by simp [ha'], hfa'⟩

theorem mapM_migratePage_of_ne_null (pd : String → Option Int) (now : Int) :
    ∀ l : List Json, (∀ p ∈ l, p ≠ Json.null) →
      l.mapM (migratePage pd now) = some (l.map (migratePageObj pd now))
  | [], _ => rfl
  | a :: l, h => by
    have ha := migratePage_of_ne_null pd now a (h a (by simp))
    have hl := mapM_migratePage_of_ne_null pd now l (fun b hb => h b (by simp [hb]))
    rw [List.mapM_cons, ha, hl]
    rfl

theorem migrateHeader_obj (fs : List (String × Json)) :
    ∃ gs, migrateHeader (Json.obj fs) = Json.obj gs ∧
      (getField gs "version").truthy = true ∧
      (getField gs "theme").truthy = true ∧
      (∀ k, k ≠ "version" → k ≠ "theme" → getField gs k = getField fs k) := by
  by_cases hv : (getField fs "version").truthy
  · by_cases hth : (getField fs "theme").truthy
    · exact ⟨fs, by simp [migrateHeader, Json.get, hv, hth], hv, hth, fun k _ _ => rfl⟩
    · refine ⟨setFields fs "theme" (Json.str "light"), ?_, ?_, ?_, ?_⟩
      · simp [migrateHeader, Json.get, hv, hth, Json.set]
      · rw [getField_setFields_ne fs "theme" "version" _ (by decide)]; exact hv
      · rw [getField_setFields_self]; rfl
      · intro k _ hk2; exact getField_setFields_ne fs "theme" k _ hk2
  · have hv1 : (getField (setFields fs "version" (Json.str "1.0.0")) "version").truthy = true := by
      rw [getField_setFields_self]; rfl
    by_cases hth : (getField (setFields fs "version" (Json.str "1.0.0")) "theme").truthy
    · refine ⟨setFields fs "version" (Json.str "1.0.0"), ?_, hv1, hth, ?_⟩
      · simp [migrateHeader, hv, Json.set, Json.get, hth]
      · intro k hk1 _; exact getField_setFields_ne fs "version" k _ hk1
    · refine ⟨setFields (setFields fs "version" (Json.str "1.0.0")) "theme" (Json.str "light"), ?_, ?_, ?_, ?_⟩
      · simp [migrateHeader, hv, Json.set, Json.get, hth]
      · rw [getField_setFields_ne _ "theme" "version" _ (by decide)]; exact hv1
      · rw [getField_setFields_self]; rfl
      · intro k hk1 hk2
        rw [getField_setFields_ne _ "theme" k _ hk2,
            getField_setFields_ne fs "version" k _ hk1]

theorem migratePageObj_ne_null (pd : String → Option Int) (now : Int)
    (p : Json) : migratePageObj pd now p ≠ Json.null := by
  simp [migratePageObj]

theorem migrateData_obj_shape (pd : String → Option Int) (now : Int)
    (fs : List (String × Json)) (y : Json)
    (h : migrateData pd now (Json.obj fs) = some y) :
    ∃ gs ps qs,
      y = Json.obj (setFields gs "pages" (Json.arr qs)) ∧
      getField gs "pages" = Json.arr ps ∧
      migrateHeader (Json.obj fs) = Json.obj gs ∧
      (getField gs "version").truthy = true ∧
      (getField gs "theme").truthy = true ∧
      ps.mapM (migratePage pd now) = some qs ∧
      (∀ k, k ≠ "version" → k ≠ "theme" → getField gs k = getField fs k) := by
  obtain ⟨gs, hgs, hv, hth, hpres⟩ := migrateHeader_obj fs
  simp only [migrateData, hgs, Json.get, Json.set] at h
  cases hpg : getField gs "pages" with
  | arr ps =>
    rw [hpg] at h
    replace h : (ps.mapM (migratePage pd now)).map
        (fun qs => Json.obj (setFields gs "pages" (Json.arr qs))) = some y := h
    cases hmm : ps.mapM (migratePage pd now) with
    | none => rw [hmm] at h; simp at h
    | some qs =>
      rw [hmm] at h
      simp only [Option.map_some', Option.some.injEq] at h
      exact ⟨gs, ps, qs, h.symm, hpg, hgs, hv, hth, hmm, hpres⟩
  | null => rw [hpg] at h; simp at h
  | bool b => rw [hpg] at h; simp at h
  | num n => rw [hpg] at h; simp at h
  | str s => rw [hpg] at h; simp at h
  | obj gs2 => rw [hpg] at h; simp at h
  | date t => rw [hpg] at h; simp at h

theorem migrateData_idem (pd : String → Option Int) (now now' : Int)
    (x y : Json) (h : migrateData pd now x = some y) :
    migrateData pd now' y = some y := by
  cases x with
  | null => simp [migrateData] at h
  | bool b => simp [migrateData] at h
  | num n => simp [migrateData] at h
  | str s => simp [migrateData] at h
  | arr l => simp [migrateData] at h
  | date t => simp [migrateData] at h
  | obj fs =>
    obtain ⟨gs, ps, qs, hy, hpg, hdr, hv, hth, hmapm, hpres⟩ :=
      migrateData_obj_shape pd now fs y h
    subst hy
    have hv2 : (getField (setFields gs "pages" (Json.arr qs)) "version").truthy = true := by
      rw [getField_setFields_ne gs "pages" "version" _ (by decide)]; exact hv
    have hth2 : (getField (setFields gs "pages" (Json.arr qs)) "theme").truthy = true := by
      rw [getField_setFields_ne gs "pages" "theme" _ (by decide)]; exact hth
    have hdr2 : migrateHeader (Json.obj (setFields gs "pages" (Json.arr qs))) =
        Json.obj (setFields gs "pages" (Json.arr qs)) := by
      simp [migrateHeader, Json.get, hv2, hth2]
    have hqs : qs.mapM (migratePage pd now') = some qs := by
      apply mapM_option_eq_some_self
      intro b hb
      obtain ⟨a, _, hfa⟩ := mapM_option_mem _ ps qs hmapm b hb
      have hanull : a ≠ Json.null := migratePage_ne_null pd now a b hfa
      rw [migratePage_of_ne_null pd now a hanull] at hfa
      injection hfa with hfa
      subst hfa
      rw [migratePage_of_ne_null pd now' _ (migratePageObj_ne_null pd now a)]
      rw [migratePageObj_idem]
    simp only [migrateData, hdr2, Json.get]
    rw [getField_setFields_self]
    show (qs.mapM (migratePage pd now')).map
        (fun ps => (Json.obj (setFields gs "pages" (Json.arr qs))).set "pages"
          (Json.arr ps)) = some (Json.obj (setFields gs "pages" (Json.arr qs)))
    rw [hqs]
    simp only [Option.map_some', Json.set]
    rw [setFields_setFields_self]

theorem deleteCurrentPage_cases (s : AppState) (confirmed : Bool)
    (out : AppState × DeleteResult)
    (h : deleteCurrentPage s confirmed = some out) :
    out.1 = s ∨ ∃ i, out.1.data.pages = s.data.pages.eraseIdx i := by
  unfold deleteCurrentPage at h
  split at h
  · simp only [Option.some.injEq] at h; subst h; left; rfl
  · split at h
    · simp only [Option.some.injEq] at h; subst h; left; rfl
    · split at h
      · split at h
        · exact absurd h (by simp)
        · dsimp only at h
          split at h
          · exact absurd h (by simp)
          · simp only [Option.some.injEq] at h; subst h
            right; exact ⟨_, rfl⟩
      · simp only [Option.some.injEq] at h; subst h; left; rfl

/-- C7: `migrateData` (the spec's `normalize`) is idempotent: whenever it
succeeds, re-running it on its own output — with any later clock value —
returns the output unchanged. -/
theorem migrateData_idempotent (pd : String → Option Int) (now now' : Int)
    (x y : Json) (h : migrateData pd now x = some y) :
    migrateData pd now' y = some y :=
  migrateData_idem pd now now' x y h

/-- C7 witness: a concrete payload on which migration succeeds, whose
migrated image re-migrates to itself. -/
theorem migrateData_idempotent_witness :
    migrateData pdFix 0 xIdem = some yIdem ∧
    migrateData pdFix 7 yIdem = some yIdem :=
  ⟨rfl, migrateData_idempotent pdFix 0 7 xIdem yIdem rfl⟩

/-- C4: with exactly one page in the collection, `deleteCurrentPage` leaves
the whole state (pages, `currentPageId`, theme) unchanged and reports the
cannot-delete-last-page condition, regardless of the confirm dialog. -/
theorem deleteCurrentPage_single_page (s : AppState) (confirmed : Bool)
    (h : s.data.pages.length = 1) :
    deleteCurrentPage s confirmed =
      some (s, DeleteResult.cannotDeleteLastPage) := by
  cases hcp : s.currentPage with
  | none => simp [deleteCurrentPage, hcp]
  | some cp => simp [deleteCurrentPage, hcp, h]

/-- C4 witness: the concrete single-page state. -/
theorem deleteCurrentPage_single_page_witness :
    deleteCurrentPage sSingle true =
      some (sSingle, DeleteResult.cannotDeleteLastPage) :=
  deleteCurrentPage_single_page sSingle true rfl

/-- C8 counterexample: duplicating an active page titled "Notes" appends a
page titled "Notes (Cópia)"; no page titled "Notes (Copy)" exists in the
result. -/
theorem duplicateCurrentPage_copy_marker_counterexample :
    (duplicateCurrentPage sNotes 5).data.pages.map PageData.title =
      ["Notes", "Notes (Cópia)"] ∧
    "Notes (Cópia)" ≠ "Notes (Copy)" := by
  constructor
  · rfl
  · decide

/-- C8 (amended): `duplicateCurrentPage` on an active page titled "Notes"
appends a page titled "Notes (Cópia)" whose icon and content are identical
to the original, whose time-based id differs from the original's whenever
the clock string does, and which becomes the active page. -/
theorem duplicateCurrentPage_spec (s : AppState) (cp : PageData) (now : Int)
    (hcp : s.currentPage = some cp) (ht : cp.title = "Notes")
    (hid : toString now ≠ cp.id) :
    ∃ np : PageData,
      (duplicateCurrentPage s now).data.pages = s.data.pages ++ [np] ∧
      np.title = "Notes (Cópia)" ∧
      np.icon = cp.icon ∧
      np.content = cp.content ∧
      np.id ≠ cp.id ∧
      (duplicateCurrentPage s now).currentPage = some np ∧
      (duplicateCurrentPage s now).data.currentPageId = np.id := by
  refine ⟨{ id := toString now, title := cp.title ++ " (Cópia)", icon := cp.icon,
            content := cp.content, createdAt := now, updatedAt := now },
          ?_, ?_, rfl, rfl, hid, ?_, ?_⟩
  · simp [duplicateCurrentPage, hcp]
  · rw [ht]
    show "Notes" ++ " (Cópia)" = "Notes (Cópia)"
    decide
  · simp [duplicateCurrentPage, hcp]
  · simp [duplicateCurrentPage, hcp]

/-- C8 witness: the concrete "Notes" state at clock 7. -/
theorem duplicateCurrentPage_spec_witness :
    ∃ np : PageData,
      (duplicateCurrentPage sNotes 7).data.pages = sNotes.data.pages ++ [np] ∧
      np.title = "Notes (Cópia)" ∧
      np.icon = pNotes.icon ∧
      np.content = pNotes.content ∧
      np.id ≠ pNotes.id ∧
      (duplicateCurrentPage sNotes 7).currentPage = some np ∧
      (duplicateCurrentPage sNotes 7).data.currentPageId = np.id :=
  duplicateCurrentPage_spec sNotes pNotes 7 rfl rfl (by decide)

/-- C3 counterexample: starting from the default collection, two
`createNewPage` calls falling in the same `Date.now()` millisecond assign
the same id, so the pairwise-distinct-ids invariant is violated. -/
theorem createNewPage_id_collision :
    ¬ ((AppState.data
          (createNewPage (createNewPage (startupState 0) 100 "A" "") 100 "B" "")
        ).pages.map PageData.id).Nodup := by decide

/-- C3 (amended): `createNewPage` and `duplicateCurrentPage` preserve
pairwise-distinct page ids provided the fresh time string differs from
every existing id, and `deleteCurrentPage` preserves them unconditionally
(ids can collide when the clock string repeats, and import performs no
uniqueness check). -/
theorem pageIds_nodup_preserved :
    (∀ (s : AppState) (now : Int) (title icon : String),
       toString now ∉ s.data.pages.map PageData.id →
       (s.data.pages.map PageData.id).Nodup →
       ((createNewPage s now title icon).data.pages.map PageData.id).Nodup) ∧
    (∀ (s : AppState) (now : Int),
       toString now ∉ s.data.pages.map PageData.id →
       (s.data.pages.map PageData.id).Nodup →
       ((duplicateCurrentPage s now).data.pages.map PageData.id).Nodup) ∧
    (∀ (s : AppState) (confirmed : Bool) (out : AppState × DeleteResult),
       (s.data.pages.map PageData.id).Nodup →
       deleteCurrentPage s confirmed = some out →
       (out.1.data.pages.map PageData.id).Nodup) := by
  refine ⟨?_, ?_, ?_⟩
  · intro s now title icon hfresh hnd
    simp [createNewPage, List.nodup_append, hnd, hfresh]
  · intro s now hfresh hnd
    cases hcp : s.currentPage with
    | none => simpa [duplicateCurrentPage, hcp] using hnd
    | some cp => simp [duplicateCurrentPage, hcp, List.nodup_append, hnd, hfresh]
  · intro s confirmed out hnd hdel
    rcases deleteCurrentPage_cases s confirmed out hdel with h | ⟨i, h⟩
    · rw [h]; exact hnd
    · rw [h]
      exact List.Nodup.sublist
        (List.Sublist.map PageData.id (List.eraseIdx_sublist _ i)) hnd

/-- C3 witness: the three preservation statements applied at concrete
states where the clock string is fresh. -/
theorem pageIds_nodup_preserved_witness :
    ((createNewPage (startupState 0) 200 "T" "").data.pages.map PageData.id).Nodup ∧
    ((duplicateCurrentPage (startupState 0) 300).data.pages.map PageData.id).Nodup ∧
    (((createNewPage (startupState 0) 200 "T" "").data.pages.map PageData.id).Nodup → True) := by
  refine ⟨?_, ?_, fun _ => trivial⟩
  · exact pageIds_nodup_preserved.1 (startupState 0) 200 "T" "" (by decide) (by decide)
  · exact pageIds_nodup_preserved.2.1 (startupState 0) 300 (by decide) (by decide)

theorem findIdx?_append_cons {α : Type} (f : α → Bool) :
    ∀ (l : List α) (a : α) (r : List α) (i : Nat),
      (∀ x ∈ l, f x = false) → f a = true →
      List.findIdx? f (l ++ a :: r) i = some (i + l.length)
  | [], a, r, i, _, ha => by simp [List.findIdx?_cons, ha]
  | x :: l, a, r, i, hl, ha => by
    have hx : f x = false := hl x (by simp)
    have ih := findIdx?_append_cons f l a r (i + 1)
      (fun y hy => hl y (by simp [hy])) ha
    rw [List.cons_append, List.findIdx?_cons, hx]
    simp only [Bool.false_eq_true, if_false, ih, List.length_cons]
    congr 1
    omega

theorem eraseIdx_append_cons {α : Type} :
    ∀ (l : List α) (a : α) (r : List α),
      (l ++ a :: r).eraseIdx l.length = l ++ r
  | [], _, _ => by simp
  | x :: l, a, r => by
    simp only [List.cons_append, List.length_cons, List.eraseIdx_cons_succ,
      eraseIdx_append_cons l a r]

/-- C5: with more than one page, a confirmed deletion of the active page
(under the standing distinct-ids invariant) removes exactly the active page
and selects the page now occupying the deleted index when one exists, else
the page at the previous index; `currentPageId` is updated to the selected
page's id and resolves to a member of the surviving pages. -/
theorem deleteCurrentPage_removes_active (s : AppState) (cp : PageData)
    (hcp : s.currentPage = some cp)
    (hlen : 1 < s.data.pages.length)
    (hnd : (s.data.pages.map PageData.id).Nodup)
    (hmem : cp ∈ s.data.pages) :
    ∃ l r s2 np,
      s.data.pages = l ++ cp :: r ∧
      deleteCurrentPage s true = some (s2, DeleteResult.deleted) ∧
      s2.data.pages = l ++ r ∧
      s2.data.theme = s.data.theme ∧
      s2.currentPage = some np ∧
      s2.data.currentPageId = np.id ∧
      np ∈ s2.data.pages ∧
      (r ≠ [] → (l ++ r).get? l.length = some np) ∧
      (r = [] → (l ++ r).get? (l.length - 1) = some np) := by
  obtain ⟨l, r, hdecomp⟩ := List.append_of_mem hmem
  have hids : ∀ x ∈ l, (x.id == cp.id) = false := by
    intro x hx
    have h2 : (l.map PageData.id ++ (cp.id :: r.map PageData.id)).Nodup := by
      have h3 := hnd
      rw [hdecomp] at h3
      simpa using h3
    have hdisj := (List.nodup_append.mp h2).2.2
    have hnotin : x.id ∉ (cp.id :: r.map PageData.id) :=
      hdisj (List.mem_map_of_mem PageData.id hx)
    have hne : x.id ≠ cp.id := fun hEq => hnotin (by simp [hEq])
    simpa using hne
  have hfind : s.data.pages.findIdx? (fun p => p.id == cp.id) = some l.length := by
    rw [hdecomp]
    have h4 := findIdx?_append_cons (fun p => p.id == cp.id) l cp r 0 hids (by simp)
    simpa using h4
  have herase : s.data.pages.eraseIdx l.length = l ++ r := by
    rw [hdecomp]; exact eraseIdx_append_cons l cp r
  have hgt : ¬ (s.data.pages.length ≤ 1) := by omega
  cases r with
  | cons hd tl =>
    have hif : ¬ ((l ++ hd :: tl).length ≤ l.length) := by simp
    have hget : (l ++ hd :: tl).get? l.length = some hd := by
      rw [List.get?_append_right (Nat.le_refl _)]
      simp
    refine ⟨l, hd :: tl,
      { data := { s.data with pages := l ++ hd :: tl, currentPageId := hd.id }
        currentPage := some hd }, hd,
      hdecomp, ?_, rfl, rfl, rfl, rfl, by simp, fun _ => hget,
      fun hcontra => absurd hcontra (by simp)⟩
    simp only [deleteCurrentPage, hcp]
    rw [if_neg hgt]
    simp only [if_true, hfind, herase]
    rw [if_neg hif, hget]
  | nil =>
    have hlpos : 1 ≤ l.length := by
      rw [hdecomp] at hlen
      simp at hlen
      omega
    have hif : (l ++ ([] : List PageData)).length ≤ l.length := by simp
    obtain ⟨np, hget⟩ : ∃ np, (l ++ ([] : List PageData)).get? (l.length - 1) = some np := by
      rw [List.get?_eq_get (by simp; omega)]
      exact ⟨_, rfl⟩
    refine ⟨l, [],
      { data := { s.data with pages := l ++ [], currentPageId := np.id }
        currentPage := some np }, np,
      hdecomp, ?_, rfl, rfl, rfl, rfl,
      List.get?_mem hget, fun hcontra => absurd rfl hcontra, fun _ => hget⟩
    simp only [deleteCurrentPage, hcp]
    rw [if_neg hgt]
    simp only [if_true, hfind, herase]
    rw [if_pos hif, hget]

/-- C5 witness: a concrete two-page state whose first page is active. -/
theorem deleteCurrentPage_removes_active_witness :
    ∃ l r s2 np,
      sTwo.data.pages = l ++ pFix1 :: r ∧
      deleteCurrentPage sTwo true = some (s2, DeleteResult.deleted) ∧
      s2.data.pages = l ++ r ∧
      s2.data.theme = sTwo.data.theme ∧
      s2.currentPage = some np ∧
      s2.data.currentPageId = np.id ∧
      np ∈ s2.data.pages ∧
      (r ≠ [] → (l ++ r).get? l.length = some np) ∧
      (r = [] → (l ++ r).get? (l.length - 1) = some np) :=
  deleteCurrentPage_removes_active sTwo pFix1 rfl (by decide) (by decide) (by decide)

theorem listStartsWith_iff (pat : List Char) :
    ∀ l, listStartsWith l pat = true ↔ ∃ t, l = pat ++ t := by
  induction pat with
  | nil => intro l; simp [listStartsWith]
  | cons b bs ih =>
    intro l
    cases l with
    | nil => simp [listStartsWith]
    | cons a as =>
      rw [listStartsWith]
      simp only [Bool.and_eq_true, beq_iff_eq, ih as, List.cons_append,
        List.cons.injEq]
      constructor
      · rintro ⟨hab, t, ht⟩; exact ⟨t, hab, ht⟩
      · rintro ⟨t, hab, ht⟩; exact ⟨hab, t, ht⟩

theorem listContainsSub_iff (pat : List Char) :
    ∀ l, listContainsSub pat l = true ↔ ∃ x y, l = x ++ pat ++ y
  | [] => by
    rw [listContainsSub]
    simp only [List.isEmpty_iff]
    constructor
    · intro h; exact ⟨[], [], by simp [h]⟩
    · rintro ⟨x, y, hxy⟩
      rcases List.append_eq_nil.mp (List.append_eq_nil.mp hxy.symm).1 with ⟨-, h2⟩
      exact h2
  | a :: t => by
    rw [listContainsSub]
    simp only [Bool.or_eq_true, listStartsWith_iff pat (a :: t),
      listContainsSub_iff pat t]
    constructor
    · rintro (⟨u, hu⟩ | ⟨x, y, hxy⟩)
      · exact ⟨[], u, by simp [hu]⟩
      · exact ⟨a :: x, y, by simp [hxy]⟩
    · rintro ⟨x, y, hxy⟩
      cases x with
      | nil => exact Or.inl ⟨y, by simpa using hxy⟩
      | cons c x2 =>
        rw [List.cons_append, List.cons_append, List.cons.injEq] at hxy
        exact Or.inr ⟨x2, y, hxy.2⟩

/-- C9: `searchPages` with a blank (empty or whitespace-only) query returns
all pages unfiltered, and with a non-blank query returns exactly the pages
whose lowercased title or content contains the lowercased query as a
contiguous substring, as a sublist of the collection (hence in original
order). -/
theorem searchPages_spec :
    (∀ (s : AppState) (q : String), jsTrim q = "" → searchPages s q = s.data.pages) ∧
    (∀ (s : AppState) (q : String), jsTrim q ≠ "" →
      (searchPages s q).Sublist s.data.pages ∧
      (∀ p, p ∈ searchPages s q ↔ p ∈ s.data.pages ∧
        ((∃ x y, p.title.toLower.toList = x ++ q.toLower.toList ++ y) ∨
         (∃ x y, p.content.toLower.toList = x ++ q.toLower.toList ++ y)))) := by
  constructor
  · intro s q hq
    have hq2 : (jsTrim q).isEmpty = true := by rw [String.isEmpty_iff]; exact hq
    simp [searchPages, hq2]
  · intro s q hq
    have hq3 : (jsTrim q).isEmpty = false := by
      cases h : (jsTrim q).isEmpty
      · rfl
      · exact absurd ((String.isEmpty_iff _).mp h) hq
    constructor
    · simp only [searchPages, hq3, Bool.false_eq_true, if_false]
      exact List.filter_sublist _
    · intro p
      simp only [searchPages, hq3, Bool.false_eq_true, if_false,
        List.mem_filter, jsIncludes, Bool.or_eq_true, listContainsSub_iff]

/-- C9 witness: a blank query returns all pages of a concrete state; a
non-blank query filters it to a sublist. -/
theorem searchPages_spec_witness :
    searchPages sTwo "  " = sTwo.data.pages ∧
    (searchPages sTwo "hello").Sublist sTwo.data.pages :=
  ⟨searchPages_spec.1 sTwo "  " (by decide),
   (searchPages_spec.2 sTwo "hello" (by decide)).1⟩

theorem isEmpty_eq_false_iff (s : String) : s.isEmpty = false ↔ ¬ s = "" := by
  constructor
  · intro h1 h2
    subst h2
    rw [show ("" : String).isEmpty = true from rfl] at h1
    cases h1
  · intro h1
    cases h2 : s.isEmpty
    · rfl
    · exact absurd ((String.isEmpty_iff s).mp h2) h1

theorem truthy_iff (j : Json) : j.truthy = true ↔ Truthy j := by
  cases j with
  | bool b => cases b <;> simp [Json.truthy, Truthy]
  | num n => simp [Json.truthy, Truthy, bne_iff_ne]
  | str s =>
    simp [Json.truthy, Truthy, Bool.not_eq_true', isEmpty_eq_false_iff]
  | _ => simp [Json.truthy, Truthy]

theorem typeofString_iff (j : Json) :
    typeofString j = true ↔ ∃ s, j = Json.str s := by
  cases j <;> simp [typeofString]

theorem validatePage_eq_true_iff (p : Json) :
    validatePage p = some true ↔ SpecPageOk p := by
  cases p <;>
    simp [validatePage, SpecPageOk, Bool.and_eq_true, truthy_iff, typeofString_iff]

theorem validatePages_eq_true_iff :
    ∀ l : List Json,
      validatePages l = some true ↔ ∀ p ∈ l, validatePage p = some true
  | [] => by simp [validatePages]
  | p :: rest => by
    cases hv : validatePage p with
    | none => simp [validatePages, hv]
    | some b =>
      cases b with
      | false => simp [validatePages, hv]
      | true => simp [validatePages, hv, validatePages_eq_true_iff rest]

theorem validateImportedData_eq_true_iff (d : Json) :
    validateImportedData d = some true ↔ SpecImportAccepted d := by
  by_cases ht : d.truthy
  · have ht2 : Truthy d := (truthy_iff d).mp ht
    cases hp : d.get "pages" with
    | arr ps =>
      by_cases hne : ps.length > 0
      · simp [validateImportedData, ht, hp, hne, SpecImportAccepted, ht2,
          validatePages_eq_true_iff, validatePage_eq_true_iff,
          List.length_pos.mp hne]
      · have hnil : ps = [] := by
          cases ps with
          | nil => rfl
          | cons a l => exact absurd (by simp) hne
        subst hnil
        simp [validateImportedData, ht, hp, SpecImportAccepted]
    | null => simp [validateImportedData, ht, hp, SpecImportAccepted, ht2]
    | bool b => simp [validateImportedData, ht, hp, SpecImportAccepted, ht2]
    | num n => simp [validateImportedData, ht, hp, SpecImportAccepted, ht2]
    | str s => simp [validateImportedData, ht, hp, SpecImportAccepted, ht2]
    | obj fs => simp [validateImportedData, ht, hp, SpecImportAccepted, ht2]
    | date t => simp [validateImportedData, ht, hp, SpecImportAccepted, ht2]
  · have ht2 : ¬ Truthy d := fun h2 => ht ((truthy_iff d).mpr h2)
    have ht3 : d.truthy = false := by
      cases h4 : d.truthy
      · rfl
      · exact absurd h4 ht
    simp [validateImportedData, ht3, SpecImportAccepted, ht2]

theorem importData_noop (pd : String → Option Int) (now : Int) (s : RawState)
    (payload : Json) (ext : String) (confirmed : Bool)
    (h : validateImportedData payload ≠ some true) :
    importData pd now s payload ext confirmed = s := by
  unfold importData
  by_cases he : ext = "json"
  · rw [if_pos he]
    cases hv : validateImportedData payload with
    | none => rfl
    | some b =>
      cases b with
      | false => rfl
      | true => exact absurd hv h
  · rw [if_neg he]

/-- C6: `validateImportedData` accepts a payload exactly when it is a
non-empty (truthy) structure whose `pages` field is a non-empty array in
which every element has a non-empty `id`, a non-empty `title`, and a
string-typed `content` (the spec-side predicate `SpecImportAccepted`); and
whenever validation does not succeed — including a thrown access on a null
page — the import leaves the current state untouched, for any extension,
confirmation answer, clock and date parser. -/
theorem validateImportedData_spec :
    (∀ payload, validateImportedData payload = some true ↔
       SpecImportAccepted payload) ∧
    (∀ (pd : String → Option Int) (now : Int) (s : RawState) (payload : Json)
       (ext : String) (confirmed : Bool),
       validateImportedData payload ≠ some true →
       importData pd now s payload ext confirmed = s) :=
  ⟨validateImportedData_eq_true_iff,
   fun pd now s payload ext confirmed h =>
     importData_noop pd now s payload ext confirmed h⟩

/-- C6 witness: the payload `{"pages": []}` is rejected and the import
leaves the concrete state unchanged. -/
theorem validateImportedData_spec_witness :
    validateImportedData payloadEmptyPages = some false ∧
    importData pdFix 0 rawFix payloadEmptyPages "json" true = rawFix :=
  ⟨rfl, validateImportedData_spec.2 pdFix 0 rawFix payloadEmptyPages "json"
     true (by decide)⟩

/-- C2 counterexample: a payload in which exactly one page lacks a `title`
fails validation (`some false`, not acceptance) and the import leaves the
state unchanged — the Migrator never runs on the import path. -/
theorem importMissingTitle_counterexample :
    validateImportedData payloadNoTitle = some false ∧
    importData pdFix 0 rawFix payloadNoTitle "json" true = rawFix :=
  ⟨rfl, rfl⟩

/-- C2 (amended): importing a payload one of whose pages has a falsy
(absent/empty) `title` is rejected by validation and the collection is left
unchanged; the Migrator — which would have filled the placeholder title, as
shown by the last conjunct — is never reached on the import path. -/
theorem importMissingTitle_rejected (pd : String → Option Int) (now : Int)
    (s : RawState) (payload : Json) (ext : String) (confirmed : Bool)
    (ps : List Json) (p : Json)
    (hp : payload.get "pages" = Json.arr ps) (hmem : p ∈ ps)
    (htitle : (p.get "title").truthy = false) :
    validateImportedData payload ≠ some true ∧
    importData pd now s payload ext confirmed = s ∧
    (p ≠ Json.null → ∃ q, migratePage pd now p = some q ∧
       q.get "title" = Json.str "Página sem título") := by
  have hnv : validateImportedData payload ≠ some true := by
    intro hv
    rw [validateImportedData_eq_true_iff] at hv
    obtain ⟨-, ps2, hps2, -, hall⟩ := hv
    have hps3 : Json.arr ps = Json.arr ps2 := hp.symm.trans hps2
    injection hps3 with hps3
    subst hps3
    obtain ⟨-, -, htr, -⟩ := hall p hmem
    rw [← truthy_iff] at htr
    rw [htitle] at htr
    cases htr
  refine ⟨hnv, importData_noop pd now s payload ext confirmed hnv, ?_⟩
  intro hpnull
  refine ⟨migratePageObj pd now p,
    migratePage_of_ne_null pd now p hpnull, ?_⟩
  rw [migratePageObj_get_title]
  simp [jsOr, htitle]

/-- C2 witness: the amended statement at the concrete one-page-missing-title
payload. -/
theorem importMissingTitle_rejected_witness :
    validateImportedData payloadNoTitle ≠ some true ∧
    importData pdFix 0 rawFix payloadNoTitle "json" true = rawFix ∧
    (noTitlePageJ ≠ Json.null → ∃ q, migratePage pdFix 0 noTitlePageJ = some q ∧
       q.get "title" = Json.str "Página sem título") :=
  importMissingTitle_rejected pdFix 0 rawFix payloadNoTitle "json" true
    [goodPageJ, noTitlePageJ] noTitlePageJ rfl (by simp [payloadNoTitle]) rfl

theorem map_self_of_forall {α : Type} (f : α → α) :
    ∀ l : List α, (∀ a ∈ l, f a = a) → l.map f = l
  | [], _ => rfl
  | a :: l, h => by
    rw [List.map_cons, h a (by simp),
      map_self_of_forall f l (fun b hb => h b (by simp [hb]))]

theorem restorePage_migratePageObj (pd' pd : String → Option Int) (now : Int)
    (p : Json) :
    restorePage pd' (migratePageObj pd now p) = migratePageObj pd now p := by
  obtain ⟨tc, gc⟩ : ∃ t, (migratePageObj pd now p).get "createdAt" = Json.date t := by
    rw [migratePageObj_get_created]
    split
    · exact newDateFrom_date pd _
    · exact ⟨some now, rfl⟩
  obtain ⟨tu, gu⟩ : ∃ t, (migratePageObj pd now p).get "updatedAt" = Json.date t := by
    rw [migratePageObj_get_updated]
    split
    · exact newDateFrom_date pd _
    · exact ⟨some now, rfl⟩
  simp [restorePage, gc, gu]

theorem validatePage_ne_null (p : Json) (b : Bool)
    (h : validatePage p = some b) : p ≠ Json.null := by
  intro hnull
  subst hnull
  simp [validatePage] at h

theorem Json.get_obj_of_ne_null (d : Json) (k : String)
    (h : d.get k ≠ Json.null) : ∃ fs, d = Json.obj fs := by
  cases d with
  | obj fs => exact ⟨fs, rfl⟩
  | null => exact absurd rfl h
  | bool b => exact absurd rfl h
  | num n => exact absurd rfl h
  | str s => exact absurd rfl h
  | arr xs => exact absurd rfl h
  | date t => exact absurd rfl h

theorem restoreDates_of_migrated (pd' pd : String → Option Int) (now : Int)
    (fs : List (String × Json)) (d : Json)
    (hm : migrateData pd now (Json.obj fs) = some d) :
    restoreDates pd' d = d := by
  obtain ⟨gs, ps0, qs, hy, hpg, hdr, hv, hth, hmapm, hpres⟩ :=
    migrateData_obj_shape pd now fs d hm
  subst hy
  have hq : ∀ q ∈ qs, restorePage pd' q = q := by
    intro q hqmem
    obtain ⟨a, -, hfa⟩ := mapM_option_mem _ ps0 qs hmapm q hqmem
    have ha := migratePage_ne_null pd now a q hfa
    rw [migratePage_of_ne_null pd now a ha] at hfa
    injection hfa with hfa
    subst hfa
    exact restorePage_migratePageObj pd' pd now a
  have hgp : (Json.obj (setFields gs "pages" (Json.arr qs))).get "pages" =
      Json.arr qs := getField_setFields_self gs "pages" _
  unfold restoreDates
  simp only [hgp]
  rw [map_self_of_forall _ qs hq]
  simp only [Json.set]
  rw [setFields_setFields_self]

theorem migrateData_get_ne (pd : String → Option Int) (now : Int)
    (raw d : Json) (k : String) (hm : migrateData pd now raw = some d)
    (h1 : k ≠ "version") (h2 : k ≠ "theme") (h3 : k ≠ "pages") :
    d.get k = raw.get k := by
  cases raw with
  | obj fs =>
    obtain ⟨gs, ps0, qs, hy, hpg, hdr, hv, hth, hmapm, hpres⟩ :=
      migrateData_obj_shape pd now fs d hm
    subst hy
    show getField (setFields gs "pages" (Json.arr qs)) k = getField fs k
    rw [getField_setFields_ne gs "pages" k _ h3, hpres k h1 h2]
  | null => simp [migrateData] at hm
  | bool b => simp [migrateData] at hm
  | num n => simp [migrateData] at hm
  | str s => simp [migrateData] at hm
  | arr xs => simp [migrateData] at hm
  | date t => simp [migrateData] at hm
/-- C1 counterexample: loading a persisted payload whose `currentPageId`
("zzz") matches no page leaves the `currentPageId` field holding "zzz"
rather than correcting it to the first page's id "a". -/
theorem loadFromStorage_stale_counterexample :
    firstPageId (loadFromStorage pdFix 0 emptyRawState (some rawStale)).data =
      Json.str "a" ∧
    (loadFromStorage pdFix 0 emptyRawState (some rawStale)).data.get
        "currentPageId" = Json.str "zzz" ∧
    Json.str "zzz" ≠ Json.str "a" :=
  ⟨rfl, rfl, by simp⟩

/-- C1 (amended): after a load whose migrated payload's `currentPageId`
matches no page id, the in-memory active-page pointer (`currentPage`) is
re-pointed at the first page — so the active page is a member of `pages` —
but the collection's `currentPageId` field itself is left unchanged, still
holding the value carried by the persisted payload. -/
theorem loadFromStorage_stale_currentPageId (pd : String → Option Int)
    (now : Int) (s : RawState) (raw d : Json) (ps : List Json)
    (hm : migrateData pd now raw = some d)
    (hp : d.get "pages" = Json.arr ps)
    (hne : ps ≠ [])
    (hfind : ∀ p ∈ ps, jsStrictEq (p.get "id") (d.get "currentPageId") = false) :
    (loadFromStorage pd now s (some raw)).currentPage = ps.headD Json.null ∧
    (loadFromStorage pd now s (some raw)).currentPage ∈ ps ∧
    (loadFromStorage pd now s (some raw)).data.get "currentPageId" =
      raw.get "currentPageId" := by
  obtain ⟨fs, rfl⟩ : ∃ fs, raw = Json.obj fs := by
    cases raw with
    | obj fs => exact ⟨fs, rfl⟩
    | null => simp [migrateData] at hm
    | bool b => simp [migrateData] at hm
    | num n => simp [migrateData] at hm
    | str s2 => simp [migrateData] at hm
    | arr xs => simp [migrateData] at hm
    | date t => simp [migrateData] at hm
  have hrd : restoreDates pd d = d := restoreDates_of_migrated pd pd now fs d hm
  have hfd : ps.find?
      (fun p => jsStrictEq (p.get "id") (d.get "currentPageId")) = none :=
    List.find?_eq_none.mpr (fun x hx => by simp [hfind x hx])
  have hload : loadFromStorage pd now s (some (Json.obj fs)) =
      { data := d, currentPage := ps.headD Json.null } := by
    unfold loadFromStorage
    simp only [hm, hrd]
    unfold setCurrentPageFrom
    dsimp only
    simp only [hp, hfd]
    rfl
  rw [hload]
  refine ⟨rfl, ?_, ?_⟩
  · cases ps with
    | nil => exact absurd rfl hne
    | cons a l => simp
  · exact migrateData_get_ne pd now _ d "currentPageId" hm
      (by decide) (by decide) (by decide)

/-- C1 witness: the amended statement at the concrete stale payload. -/
theorem loadFromStorage_stale_currentPageId_witness :
    (loadFromStorage pdFix 0 emptyRawState (some rawStale)).currentPage =
      [qStale].headD Json.null ∧
    (loadFromStorage pdFix 0 emptyRawState (some rawStale)).currentPage ∈
      [qStale] ∧
    (loadFromStorage pdFix 0 emptyRawState (some rawStale)).data.get
        "currentPageId" = rawStale.get "currentPageId" :=
  loadFromStorage_stale_currentPageId pdFix 0 emptyRawState rawStale dStale
    [qStale] rfl rfl (by simp) (by decide)

/-- C10: after a successful confirmed import of a validated payload, the
active page is the migrated image of the payload's first page and
`currentPageId` is overwritten with that first page's id — whatever
`currentPageId` value the payload itself carried is discarded. -/
theorem importData_sets_first_page (pd : String → Option Int) (now : Int)
    (s : RawState) (payload p0 : Json) (ps : List Json)
    (hp : payload.get "pages" = Json.arr (p0 :: ps))
    (hv : validateImportedData payload = some true) :
    (importData pd now s payload "json" true).data.get "currentPageId" =
      p0.get "id" ∧
    (importData pd now s payload "json" true).currentPage =
      migratePageObj pd now p0 := by
  obtain ⟨fs, rfl⟩ : ∃ fs, payload = Json.obj fs :=
    Json.get_obj_of_ne_null payload "pages" (by rw [hp]; exact fun h => by cases h)
  have hnn : ∀ p ∈ p0 :: ps, p ≠ Json.null := by
    have hvp : validatePages (p0 :: ps) = some true := by
      have ht : (Json.obj fs).truthy = true := rfl
      simp [validateImportedData, ht, hp] at hv
      exact hv
    intro p hpmem
    exact validatePage_ne_null p true
      ((validatePages_eq_true_iff (p0 :: ps)).mp hvp p hpmem)
  obtain ⟨gs, hgs, hver, hth, hpres⟩ := migrateHeader_obj fs
  have hpg_gs : getField gs "pages" = Json.arr (p0 :: ps) := by
    rw [hpres "pages" (by decide) (by decide)]
    exact hp
  have hmm := mapM_migratePage_of_ne_null pd now (p0 :: ps) hnn
  have hmig : migrateData pd now (Json.obj fs) =
      some (Json.obj (setFields gs "pages"
        (Json.arr ((p0 :: ps).map (migratePageObj pd now))))) := by
    simp only [migrateData, hgs, Json.get, hpg_gs, hmm, Option.map_some',
      Json.set]
  have hrd : restoreDates pd (Json.obj (setFields gs "pages"
      (Json.arr ((p0 :: ps).map (migratePageObj pd now))))) =
      Json.obj (setFields gs "pages"
        (Json.arr ((p0 :: ps).map (migratePageObj pd now)))) :=
    restoreDates_of_migrated pd pd now fs _ hmig
  obtain ⟨hs, hq0⟩ : ∃ hs, migratePageObj pd now p0 = Json.obj hs := ⟨_, rfl⟩
  have hgp : (Json.obj (setFields gs "pages"
      (Json.arr ((p0 :: ps).map (migratePageObj pd now))))).get "pages" =
      Json.arr ((p0 :: ps).map (migratePageObj pd now)) :=
    getField_setFields_self gs "pages" _
  have himp : importData pd now s (Json.obj fs) "json" true =
      { data := (Json.obj (setFields gs "pages"
          (Json.arr ((p0 :: ps).map (migratePageObj pd now))))).set
            "currentPageId" ((migratePageObj pd now p0).get "id")
        currentPage := migratePageObj pd now p0 } := by
    unfold importData
    rw [if_pos rfl]
    simp only [hv, if_true, hmig, hrd, hgp]
    dsimp only [List.map_cons, List.headD]
    rw [hq0]
  rw [himp]
  constructor
  · show ((Json.obj (setFields gs "pages"
        (Json.arr ((p0 :: ps).map (migratePageObj pd now))))).set
          "currentPageId" ((migratePageObj pd now p0).get "id")).get
          "currentPageId" = p0.get "id"
    rw [migratePageObj_get_id]
    exact getField_setFields_self _ "currentPageId" _
  · rfl

/-- C10 witness: a concrete valid payload carrying its own `currentPageId`
value "IGNORED"; after import, `currentPageId` is the first page's id. -/
theorem importData_sets_first_page_witness :
    (importData pdFix 0 rawFix payloadWithCpid "json" true).data.get
        "currentPageId" = goodPageJ.get "id" ∧
    (importData pdFix 0 rawFix payloadWithCpid "json" true).currentPage =
      migratePageObj pdFix 0 goodPageJ :=
  importData_sets_first_page pdFix 0 rawFix payloadWithCpid goodPageJ []
    rfl rfl

end Beacon
